import Mathlib

/-!
Shallow embedding of the bar-sequential backtest engine (`engine.py`) and the
walk-forward optimizer (`forward_test.py`) of the tradingalgo repository.

Conventions of the embedding:
* Python floats are modelled by `ℚ` (exact arithmetic; the spec's floating
  tolerance becomes exact equality).
* Bar timestamps (`bar.name`, the dataframe index) are modelled by `Nat`.
* Mutable object state (`self.account_value`, `self.trades`,
  `self.equity_curve`, `self.current_position`, the strategy instance's own
  mutable fields) is threaded explicitly through an `EState` record.
* A strategy is a record of the three operations the engine consumes
  (`should_enter`, `should_exit`, `calculate_position_size`) together with the
  attributes the engine reads (`atr_stop_multiplier`, `reward_risk`
  corresponding to the source attribute reward_risk_ratio, and the
  instrument's `point_value` from `symbol_specs[self.strategy.symbol]`).
  Each operation takes and returns the strategy's private mutable state `σ`.
* Exit reasons are the Python strings, modelled as `Option String`
  (`should_exit` returns `(False, None)` when no exit is signalled).
-/

/-- One OHLCV bar with the indicator fields the embedded code reads.
`name` is the dataframe index value (timestamp). -/
structure Bar where
  name : Nat
  op : ℚ
  high : ℚ
  low : ℚ
  close : ℚ
  atr_14 : ℚ
  ema_9 : ℚ
  ema_21 : ℚ
  deriving Repr, DecidableEq

instance : Inhabited Bar := ⟨⟨0, 0, 0, 0, 0, 0, 0, 0⟩⟩

/-- The dictionary built by `Engine._enter_trade` describing the single open
position. -/
structure Position where
  entry_time : Nat
  entry_price : ℚ
  position_size : ℚ
  stop_loss : ℚ
  take_profit : ℚ
  entry_equity : ℚ
  deriving Repr, DecidableEq

/-- The dictionary appended to `self.trades` by `_exit_trade`. -/
structure Trade where
  entry_time : Nat
  exit_time : Nat
  entry_price : ℚ
  exit_price : ℚ
  position_size : ℚ
  pnl : ℚ
  pnl_pct : ℚ
  exit_reason : Option String
  equity_after : ℚ
  deriving Repr, DecidableEq

/-- The dictionary appended to `self.equity_curve` each bar. -/
structure EquityPoint where
  timestamp : Nat
  equity : ℚ
  position : Nat
  deriving Repr, DecidableEq

/-- The pluggable strategy contract as consumed by the engine, over a private
mutable-state type `σ` (e.g. the source strategy's `highest_profit`). -/
structure Strategy (σ : Type) where
  should_enter : σ → List Bar → Nat → σ × Bool
  should_exit : σ → List Bar → Nat → Position → σ × Bool × Option String
  calculate_position_size : σ → List Bar → Nat → ℚ → ℚ
  atr_stop_multiplier : ℚ
  reward_risk : ℚ
  point_value : ℚ

/-- The engine's mutable state: the strategy instance's private state plus
`self.account_value`, `self.trades`, `self.equity_curve`,
`self.current_position`. -/
structure EState (σ : Type) where
  strategy_state : σ
  account_value : ℚ
  trades : List Trade
  equity_curve : List EquityPoint
  current_position : Option Position

/-- `Engine.__init__(strategy, initial_capital)`: fresh account at
`initial_capital`, empty trade and equity logs, no open position. -/
def Engine.init {σ : Type} (s : σ) (initial_capital : ℚ) : EState σ :=
  { strategy_state := s
    account_value := initial_capital
    trades := []
    equity_curve := []
    current_position := none }

/-- `Engine._exit_trade(data, idx, reason)` from `engine.py`: resolve the exit
price from the reason, realize the PnL into the account, append the `Trade`
record, and clear `current_position`.  When no position is open the Python
code would fault; all call sites guard on an open position, so the embedding
returns the state unchanged in that (unreachable) case. -/
def Engine.exit_trade {σ : Type} (strat : Strategy σ) (data : List Bar)
    (idx : Nat) (reason : Option String) (st : EState σ) : EState σ :=
  match st.current_position with
  | none => st
  | some pos =>
    let bar := data.getD idx default
    let exit_price :=
      if reason = some "stop_loss" then pos.stop_loss
      else if reason = some "take_profit" then pos.take_profit
      else bar.close
    let price_change := exit_price - pos.entry_price
    let pnl := price_change * pos.position_size * strat.point_value
    let pnl_pct := (pnl / pos.entry_equity) * 100
    let account2 := st.account_value + pnl
    let trade : Trade :=
      { entry_time := pos.entry_time
        exit_time := bar.name
        entry_price := pos.entry_price
        exit_price := exit_price
        position_size := pos.position_size
        pnl := pnl
        pnl_pct := pnl_pct
        exit_reason := reason
        equity_after := account2 }
    { st with
        account_value := account2
        trades := st.trades ++ [trade]
        current_position := none }

/-- `Engine._enter_trade(data, idx)` from `engine.py`: size the position from
the current account value, derive stop/target from the bar's ATR, and store
the new `current_position`. -/
def Engine.enter_trade {σ : Type} (strat : Strategy σ) (data : List Bar)
    (idx : Nat) (st : EState σ) : EState σ :=
  let bar := data.getD idx default
  let position_size :=
    strat.calculate_position_size st.strategy_state data idx st.account_value
  let entry_price := bar.close
  let stop_distance := bar.atr_14 * strat.atr_stop_multiplier
  let stop_loss := entry_price - stop_distance
  let take_profit := entry_price + stop_distance * strat.reward_risk
  { st with
      current_position := some
        { entry_time := bar.name
          entry_price := entry_price
          position_size := position_size
          stop_loss := stop_loss
          take_profit := take_profit
          entry_equity := st.account_value } }

/-- One iteration of the `for idx in range(len(data))` loop of
`Engine.run_backtest`: record the equity point, then either consult the
strategy's exit decision (position open) or its entry decision (no
position). -/
def Engine.processBar {σ : Type} (strat : Strategy σ) (data : List Bar)
    (idx : Nat) (st : EState σ) : EState σ :=
  let bar := data.getD idx default
  let point : EquityPoint :=
    { timestamp := bar.name
      equity := st.account_value
      position := if st.current_position.isSome then 1 else 0 }
  let st1 := { st with equity_curve := st.equity_curve ++ [point] }
  match st1.current_position with
  | some pos =>
    let r := strat.should_exit st1.strategy_state data idx pos
    let st2 := { st1 with strategy_state := r.1 }
    if r.2.1 then Engine.exit_trade strat data idx r.2.2 st2 else st2
  | none =>
    let r := strat.should_enter st1.strategy_state data idx
    let st2 := { st1 with strategy_state := r.1 }
    if r.2 then Engine.enter_trade strat data idx st2 else st2

/-- The bar loop: process indices `i, i+1, ..., i+n-1`. -/
def Engine.loopAux {σ : Type} (strat : Strategy σ) (data : List Bar) :
    Nat → Nat → EState σ → EState σ
  | _, 0, st => st
  | i, n + 1, st =>
    Engine.loopAux strat data (i + 1) n (Engine.processBar strat data i st)

/-- `Engine.run_backtest` from `engine.py` (with data loading and the
print/save side effects abstracted away): run the bar loop over the whole
series, then force-close any remaining position with reason `"end_of_data"`
at index `len(data) - 1`. -/
def Engine.run_backtest {σ : Type} (strat : Strategy σ) (data : List Bar)
    (st : EState σ) : EState σ :=
  let st1 := Engine.loopAux strat data 0 data.length st
  match st1.current_position with
  | some _ =>
    Engine.exit_trade strat data (data.length - 1) (some "end_of_data") st1
  | none => st1

/-- The attributes of the source `Strategy` (from `strategy.py`) that its
`should_exit` reads: the instrument point value
(`symbol_specs[self.symbol]['point_value']`) and the trailing-stop
parameters. -/
structure SrcExitParams where
  point_value : ℚ
  use_trailing_stop : Bool
  trailing_stop_activation : ℚ
  trailing_stop_distance : ℚ
  deriving Repr, DecidableEq

/-- `Strategy.should_exit(data, idx, position)` from `strategy.py`, with the
mutable `self.highest_profit` threaded explicitly (first component of the
result).  Returns `(new_highest_profit, (flag, reason))`; the reason carries
no price — the strategy has no channel for reporting an exit price.  The
Python `data.iloc[idx - 1]` resolves the index `-1` (when `idx = 0`) to the
last row, which the embedding mirrors. -/
def Strategy.src_should_exit (p : SrcExitParams) (highest_profit : ℚ)
    (data : List Bar) (idx : Nat) (position : Position) :
    ℚ × Bool × Option String :=
  let current := data.getD idx default
  let previous := data.getD (if idx = 0 then data.length - 1 else idx - 1) default
  let current_profit :=
    (current.close - position.entry_price) * position.position_size * p.point_value
  let hp := if current_profit > highest_profit then current_profit else highest_profit
  if current.low ≤ position.stop_loss then (hp, true, some "stop_loss")
  else if current.high ≥ position.take_profit then (hp, true, some "take_profit")
  else
    let risk_amount :=
      (position.entry_price - position.stop_loss) * position.position_size * p.point_value
    let lvl := current.close - current.atr_14 * p.trailing_stop_distance
    let trailing_hit : Bool :=
      p.use_trailing_stop
        && decide (hp > risk_amount * p.trailing_stop_activation)
        && decide (lvl > position.stop_loss)
        && decide (current.low ≤ lvl)
    if trailing_hit then (hp, true, some "trailing_stop")
    else
      let bearish_crossover : Bool :=
        decide (previous.ema_9 ≥ previous.ema_21)
          && decide (current.ema_9 < current.ema_21)
      if bearish_crossover then (hp, true, some "opposite_crossover")
      else (hp, false, none)

/-- Modelled from the spec: `BacktestEngine._enter_trade` of the `backtest`
module, which is not among the sources (only its subclass `ForwardTestEngine`
in `forward_test.py` is).  Spec section 4.1 step 3 and the Position data
model of section 3 prescribe exactly the behaviour of `Engine._enter_trade`
(position sized by the strategy's rule on the current bar and account value,
stop/target derived from the bar's ATR), so the modelled method delegates to
it. -/
def BacktestEngine.enter_trade {σ : Type} (strat : Strategy σ)
    (data : List Bar) (idx : Nat) (st : EState σ) : EState σ :=
  Engine.enter_trade strat data idx st

/-- Modelled from the spec: `BacktestEngine._exit_trade` of the missing
`backtest` module.  Spec section 4.1 prescribes the exit-price resolution by
reason, the PnL formula `(exit − entry) × size × point_value`, the account
update at the moment of exit, and that the close "emits a Trade"; the caller
in `forward_test.py` appends the method's return value to its trade list, so
the modelled method returns the emitted Trade.  The open position (guarded at
every call site) is passed explicitly. -/
def BacktestEngine.exit_trade {σ : Type} (strat : Strategy σ)
    (data : List Bar) (idx : Nat) (reason : Option String) (pos : Position)
    (st : EState σ) : EState σ × Trade :=
  let bar := data.getD idx default
  let exit_price :=
    if reason = some "stop_loss" then pos.stop_loss
    else if reason = some "take_profit" then pos.take_profit
    else bar.close
  let pnl := (exit_price - pos.entry_price) * pos.position_size * strat.point_value
  let account2 := st.account_value + pnl
  let trade : Trade :=
    { entry_time := pos.entry_time
      exit_time := bar.name
      entry_price := pos.entry_price
      exit_price := exit_price
      position_size := pos.position_size
      pnl := pnl
      pnl_pct := (pnl / pos.entry_equity) * 100
      exit_reason := reason
      equity_after := account2 }
  ({ st with
      account_value := account2
      trades := st.trades ++ [trade]
      current_position := none },
   trade)

/-- The metrics record returned by `ForwardTestEngine._run_single_backtest`. -/
structure RunResults where
  total_trades : Nat
  win_rate : ℚ
  total_pnl : ℚ
  profit_factor : ℚ
  final_capital : ℚ
  trades : List Trade
  deriving Repr, DecidableEq

/-- One iteration of the bar loop of
`ForwardTestEngine._run_single_backtest`: exit check when a position is open
(collecting the emitted Trade), entry check otherwise.  Unlike
`Engine.run_backtest` this loop records no equity points. -/
def ForwardTestEngine.fwdStep {σ : Type} (strat : Strategy σ)
    (data : List Bar) (idx : Nat) (acc : EState σ × List Trade) :
    EState σ × List Trade :=
  let (st, trs) := acc
  match st.current_position with
  | some pos =>
    let r := strat.should_exit st.strategy_state data idx pos
    let st2 := { st with strategy_state := r.1 }
    if r.2.1 then
      let e := BacktestEngine.exit_trade strat data idx r.2.2 pos st2
      (e.1, trs ++ [e.2])
    else (st2, trs)
  | none =>
    let r := strat.should_enter st.strategy_state data idx
    let st2 := { st with strategy_state := r.1 }
    if r.2 then (BacktestEngine.enter_trade strat data idx st2, trs) else (st2, trs)

/-- The forward-test bar loop over indices `i, ..., i+n-1`. -/
def ForwardTestEngine.loopAux {σ : Type} (strat : Strategy σ)
    (data : List Bar) : Nat → Nat → EState σ × List Trade → EState σ × List Trade
  | _, 0, acc => acc
  | i, n + 1, acc =>
    ForwardTestEngine.loopAux strat data (i + 1) n
      (ForwardTestEngine.fwdStep strat data i acc)

/-- The metrics block at the end of `ForwardTestEngine._run_single_backtest`
(`forward_test.py` lines 212-236), as a function of the final account value
and the trades collected by the run: winners are trades with `pnl > 0`,
losers those with `pnl <= 0`; the averages and the profit factor carry the
source's guards (`if len(...) > 0`, `if avg_loss != 0 and len(losers) > 0`),
and an empty trade list short-circuits every metric to 0. -/
def ForwardTestEngine.computeResults (final_account : ℚ) (trs : List Trade) :
    RunResults :=
  if trs.isEmpty then
    { total_trades := trs.length, win_rate := 0, total_pnl := 0
      profit_factor := 0, final_capital := final_account, trades := trs }
  else
    let winners := trs.filter (fun t => decide (t.pnl > 0))
    let losers := trs.filter (fun t => decide (t.pnl ≤ 0))
    let total_pnl := (trs.map Trade.pnl).sum
    let win_rate := ((winners.length : ℚ) / (trs.length : ℚ)) * 100
    let avg_win :=
      if winners.length > 0 then (winners.map Trade.pnl).sum / (winners.length : ℚ) else 0
    let avg_loss :=
      if losers.length > 0 then (losers.map Trade.pnl).sum / (losers.length : ℚ) else 0
    let profit_factor :=
      if avg_loss ≠ 0 ∧ losers.length > 0 then
        |avg_win * (winners.length : ℚ) / (avg_loss * (losers.length : ℚ))|
      else 0
    { total_trades := trs.length, win_rate := win_rate, total_pnl := total_pnl
      profit_factor := profit_factor, final_capital := final_account
      trades := trs }

/-- `ForwardTestEngine._run_single_backtest(data, params)` from
`forward_test.py` (progress printing abstracted away; the caller's `setattr`
parameter mutation corresponds to the `strat` argument passed in).  The loop
runs over all bars with NO end-of-data closure and WITHOUT resetting
`self.account_value` or `self.current_position`, which persist in the
threaded state; it then computes the per-run metrics exactly as the source
does (`ForwardTestEngine.computeResults`), reporting `final_capital` as the
engine's current `self.account_value`. -/
def ForwardTestEngine.run_single_backtest {σ : Type} (strat : Strategy σ)
    (data : List Bar) (st : EState σ) : EState σ × RunResults :=
  let a := ForwardTestEngine.loopAux strat data 0 data.length (st, [])
  (a.1, ForwardTestEngine.computeResults a.1.account_value a.2)

/-- `ForwardTestEngine._calculate_fitness_score(results)` from
`forward_test.py`: the weighted scalar
`0.4·total_pnl + 0.3·(profit_factor·1000) + 0.2·(win_rate·10) +
0.1·total_trades`. -/
def ForwardTestEngine.calculate_fitness_score (results : RunResults) : ℚ :=
  results.total_pnl * (4 / 10)
    + results.profit_factor * 1000 * (3 / 10)
    + results.win_rate * 10 * (2 / 10)
    + (results.total_trades : ℚ) * (1 / 10)

/-- `ForwardTestEngine._optimize_parameters(data, param_grid)` from
`forward_test.py`.  The per-trial evaluation
`self._run_single_backtest(data, params)` is abstracted as the argument
`runOne` (taking the trial's parameter set and the engine state threaded
through the shared `self`), and a trial's possible runtime failure is
modelled by `Except`.  The source loop contains NO exception handler, so the
embedding sequences the trials monadically: a failing trial aborts the whole
fold.  `best_score` starts at `-float('inf')`, modelled by `(⊥ : WithBot ℚ)`;
a trial becomes the new best exactly when its score is strictly greater. -/
def ForwardTestEngine.optimize_parameters {σ P : Type}
    (runOne : P → EState σ → Except String (EState σ × RunResults))
    (combos : List P) (st : EState σ) :
    Except String (EState σ × Option P × WithBot ℚ) :=
  combos.foldlM
    (fun acc p => do
      let r ← runOne p acc.1
      let score : WithBot ℚ := (ForwardTestEngine.calculate_fitness_score r.2 : ℚ)
      if acc.2.2 < score then pure (r.1, some p, score)
      else pure (r.1, acc.2.1, acc.2.2))
    (st, none, (⊥ : WithBot ℚ))

/-- Arithmetic mean of a list of rationals (`sum / length`; `0` for the empty
list under `ℚ`'s total division).  Used to state the spec's profit-factor
formula independently of the code's guarded computation. -/
def listMean (l : List ℚ) : ℚ := l.sum / (l.length : ℚ)

/-- Total PnL of a list of trade records. -/
def sumPnl (l : List Trade) : ℚ := (l.map Trade.pnl).sum

/-- Bar constructor for concrete scenarios (EMA columns zeroed; the open
column mirrors the close). -/
def mkBar (name : Nat) (low close high atr : ℚ) : Bar :=
  { name := name, op := close, high := high, low := low, close := close
    atr_14 := atr, ema_9 := 0, ema_21 := 0 }

/-- A minimal stateless strategy satisfying the engine's contract: enters
exactly at bar index `enterIdx`, and (when `exitAlways` is set) signals an
exit on every bar with the strategy-specific reason `"signal"`; position size
is always 1 contract and the instrument point value is 1. -/
def testStrategy (enterIdx : Nat) (exitAlways : Bool) : Strategy Unit :=
  { should_enter := fun s _ idx => (s, decide (idx = enterIdx))
    should_exit := fun s _ _ _ =>
      (s, exitAlways, if exitAlways then some "signal" else none)
    calculate_position_size := fun _ _ _ _ => 1
    atr_stop_multiplier := 1
    reward_risk := 2
    point_value := 1 }

/-- Two bars with strictly increasing timestamps; the close rises from 100
to 110 (entering at bar 0 and exiting at bar 1 yields PnL +10 with unit size
and point value). -/
def data2 : List Bar := [mkBar 0 60 100 105 50, mkBar 1 70 110 115 50]

/-- Two bars where the close falls from 100 to 90 (entering at bar 0 and
exiting at bar 1 yields PnL −10 with unit size and point value). -/
def dataLoss : List Bar := [mkBar 0 60 100 105 50, mkBar 1 55 90 95 50]

/-- A per-trial evaluation standing for `self._run_single_backtest` in a
grid-search scan where the parameter-0 trial's Engine run raises at runtime
and every other trial completes with an empty result set. -/
def failingTrialRun : Nat → EState Unit → Except String (EState Unit × RunResults) :=
  fun p st =>
    if p = 0 then Except.error "strategy raised"
    else Except.ok (st,
      { total_trades := 0, win_rate := 0, total_pnl := 0, profit_factor := 0
        final_capital := st.account_value, trades := [] })

/-- A concrete open position (as `Engine._enter_trade` would build it at bar
0 of `data2` with `testStrategy`): entry 100, unit size, stop 50, target
200, entry equity 100000. -/
def posX : Position :=
  { entry_time := 0, entry_price := 100, position_size := 1, stop_loss := 50
    take_profit := 200, entry_equity := 100000 }

/-- An engine state holding the open position `posX`. -/
def stPos : EState Unit :=
  { strategy_state := (), account_value := 100000, trades := []
    equity_curve := [], current_position := some posX }

/-- C10: `Engine._enter_trade` mutates only `current_position` — account
value, trades list, equity curve and the strategy's private state are
untouched by an entry — and `Engine._exit_trade` is the only account
mutation, changing it by exactly the pnl of the trade it appends. -/
theorem c10_frame_property :
    (∀ {σ : Type} (strat : Strategy σ) (data : List Bar) (idx : Nat)
        (st : EState σ),
      (Engine.enter_trade strat data idx st).account_value = st.account_value ∧
      (Engine.enter_trade strat data idx st).trades = st.trades ∧
      (Engine.enter_trade strat data idx st).equity_curve = st.equity_curve ∧
      (Engine.enter_trade strat data idx st).strategy_state = st.strategy_state) ∧
    (∀ {σ : Type} (strat : Strategy σ) (data : List Bar) (idx : Nat)
        (reason : Option String) (st : EState σ) (pos : Position),
      st.current_position = some pos →
      ∃ t, (Engine.exit_trade strat data idx reason st).trades = st.trades ++ [t] ∧
        (Engine.exit_trade strat data idx reason st).account_value
          = st.account_value + t.pnl) := by
  constructor
  · intro σ strat data idx st
    refine ⟨rfl, rfl, rfl, rfl⟩
  · intro σ strat data idx reason st pos h
    unfold Engine.exit_trade
    rw [h]
    exact ⟨_, rfl, rfl⟩

/-- Witness for C10 at a concrete exiting state. -/
theorem c10_witness :
    ∃ t, (Engine.exit_trade (testStrategy 0 true) data2 1 (some "signal") stPos).trades
        = stPos.trades ++ [t] ∧
      (Engine.exit_trade (testStrategy 0 true) data2 1 (some "signal") stPos).account_value
        = stPos.account_value + t.pnl :=
  c10_frame_property.2 (testStrategy 0 true) data2 1 (some "signal") stPos posX rfl

/-- C5: exit-price resolution — `'stop_loss'` resolves to the position's
stored stop price, `'take_profit'` to its stored target, and EVERY other
reason (the strategy-specific ones and the forced `'end_of_data'` closure)
to the current bar's close; the source strategy's `should_exit` has no
channel for reporting an exit price (its reasons are drawn from four fixed
strings), so strategy-specific exits always take the close-price default.
Stated for both the `engine.py` exit and the spec-modelled
`BacktestEngine._exit_trade` used by the forward tester. -/
theorem c5_exit_price_resolution :
    (∀ {σ : Type} (strat : Strategy σ) (data : List Bar) (idx : Nat)
        (reason : Option String) (st : EState σ) (pos : Position),
      st.current_position = some pos →
      ∃ t, (Engine.exit_trade strat data idx reason st).trades = st.trades ++ [t] ∧
        t.exit_reason = reason ∧
        t.exit_price =
          (if reason = some "stop_loss" then pos.stop_loss
           else if reason = some "take_profit" then pos.take_profit
           else (data.getD idx default).close)) ∧
    (∀ {σ : Type} (strat : Strategy σ) (data : List Bar) (idx : Nat)
        (reason : Option String) (pos : Position) (st : EState σ),
      (BacktestEngine.exit_trade strat data idx reason pos st).2.exit_reason = reason ∧
      (BacktestEngine.exit_trade strat data idx reason pos st).2.exit_price =
        (if reason = some "stop_loss" then pos.stop_loss
         else if reason = some "take_profit" then pos.take_profit
         else (data.getD idx default).close)) ∧
    (∀ (p : SrcExitParams) (hp : ℚ) (data : List Bar) (idx : Nat)
        (position : Position),
      (Strategy.src_should_exit p hp data idx position).2.2 ∈
        ([none, some "stop_loss", some "take_profit", some "trailing_stop",
          some "opposite_crossover"] : List (Option String))) := by
  refine ⟨?_, ?_, ?_⟩
  · intro σ strat data idx reason st pos h
    unfold Engine.exit_trade
    rw [h]
    exact ⟨_, rfl, rfl, rfl⟩
  · intro σ strat data idx reason pos st
    exact ⟨rfl, rfl⟩
  · intro p hp data idx position
    unfold Strategy.src_should_exit
    generalize data.getD (if idx = 0 then data.length - 1 else idx - 1) default = previous
    generalize data.getD idx default = current
    dsimp only []
    generalize (if (current.close - position.entry_price) * position.position_size
        * p.point_value > hp then (current.close - position.entry_price)
        * position.position_size * p.point_value else hp) = hp2
    split_ifs <;> simp

/-- Witness for C5 with the forced end-of-data reason, whose exit price is
the bar's close. -/
theorem c5_witness :
    ∃ t, (Engine.exit_trade (testStrategy 0 true) data2 1 (some "end_of_data") stPos).trades
        = stPos.trades ++ [t] ∧
      t.exit_reason = some "end_of_data" ∧
      t.exit_price =
        (if (some "end_of_data" : Option String) = some "stop_loss" then posX.stop_loss
         else if (some "end_of_data" : Option String) = some "take_profit" then posX.take_profit
         else (data2.getD 1 default).close) :=
  c5_exit_price_resolution.1 (testStrategy 0 true) data2 1 (some "end_of_data") stPos posX rfl

/-- C3: while a position is open the strategy's entry decision is never
consulted (replacing `should_enter` by any other decision function leaves
the bar's processing unchanged), and processing a bar with an open position
either keeps exactly that position or closes it — never creates a second
one.  (That at most one position exists at any time is structural: the
engine stores the single `current_position`, mirroring the source's one
attribute.) -/
theorem c3_single_position_entry_ignored :
    (∀ {σ : Type} (strat : Strategy σ) (f : σ → List Bar → Nat → σ × Bool)
        (data : List Bar) (idx : Nat) (st : EState σ) (pos : Position),
      st.current_position = some pos →
      Engine.processBar { strat with should_enter := f } data idx st
        = Engine.processBar strat data idx st) ∧
    (∀ {σ : Type} (strat : Strategy σ) (data : List Bar) (idx : Nat)
        (st : EState σ) (pos : Position),
      st.current_position = some pos →
      (Engine.processBar strat data idx st).current_position = none ∨
      (Engine.processBar strat data idx st).current_position = some pos) := by
  constructor
  · intro σ strat f data idx st pos h
    unfold Engine.processBar
    simp only [h]
    rfl
  · intro σ strat data idx st pos h
    unfold Engine.processBar
    simp only [h]
    split
    · unfold Engine.exit_trade
      simp [h]
    · right
      rfl

/-- Witness for C3 at a concrete state with an open position. -/
theorem c3_witness :
    (Engine.processBar { testStrategy 0 true with
        should_enter := fun s _ _ => (s, true) } data2 1 stPos
      = Engine.processBar (testStrategy 0 true) data2 1 stPos) ∧
    ((Engine.processBar (testStrategy 0 true) data2 1 stPos).current_position = none ∨
      (Engine.processBar (testStrategy 0 true) data2 1 stPos).current_position = some posX) :=
  ⟨c3_single_position_entry_ignored.1 (testStrategy 0 true)
      (fun s _ _ => (s, true)) data2 1 stPos posX rfl,
    c3_single_position_entry_ignored.2 (testStrategy 0 true) data2 1 stPos posX rfl⟩

/-- C7 counterexample: on an empty bar sequence `Engine.run_backtest`
completes normally — the engine's final state is its fresh initial state
(zero trades, empty equity curve, untouched account) — rather than failing;
no InsufficientData error exists anywhere in the sources. -/
theorem c7_counterexample :
    Engine.run_backtest (testStrategy 0 true) [] (Engine.init () 100000)
      = Engine.init () 100000 := rfl

/-- C7 amended: running the backtest engine on an empty bar sequence
completes normally with zero trades and an empty equity curve, leaving the
account at the initial capital (no error is raised; the source defines no
InsufficientData error). -/
theorem c7_empty_input_amended :
    ∀ {σ : Type} (strat : Strategy σ) (s : σ) (c : ℚ),
      Engine.run_backtest strat [] (Engine.init s c) = Engine.init s c ∧
      (Engine.run_backtest strat [] (Engine.init s c)).trades = [] ∧
      (Engine.run_backtest strat [] (Engine.init s c)).equity_curve = [] ∧
      (Engine.run_backtest strat [] (Engine.init s c)).account_value = c := by
  intro σ strat s c
  exact ⟨rfl, rfl, rfl, rfl⟩

/-- `Engine._exit_trade` preserves the quantity
`account_value − Σ pnl(trades)`: the account moves by exactly the pnl of the
trade appended. -/
theorem Engine.exit_trade_delta {σ : Type} (strat : Strategy σ)
    (data : List Bar) (idx : Nat) (reason : Option String) (st : EState σ) :
    (Engine.exit_trade strat data idx reason st).account_value
        - sumPnl (Engine.exit_trade strat data idx reason st).trades
      = st.account_value - sumPnl st.trades := by
  unfold Engine.exit_trade
  cases h : st.current_position
  · rfl
  · simp only [sumPnl, List.map_append, List.sum_append, List.map_cons,
      List.map_nil, List.sum_cons, List.sum_nil]
    ring

/-- One engine bar step preserves `account_value − Σ pnl(trades)`. -/
theorem Engine.processBar_delta {σ : Type} (strat : Strategy σ)
    (data : List Bar) (idx : Nat) (st : EState σ) :
    (Engine.processBar strat data idx st).account_value
        - sumPnl (Engine.processBar strat data idx st).trades
      = st.account_value - sumPnl st.trades := by
  unfold Engine.processBar
  cases h : st.current_position
  · dsimp only
    split
    · rfl
    · rfl
  · dsimp only
    split
    · exact Engine.exit_trade_delta strat data idx _ _
    · rfl

/-- The engine bar loop preserves `account_value − Σ pnl(trades)`. -/
theorem Engine.loopAux_acc_delta {σ : Type} (strat : Strategy σ)
    (data : List Bar) :
    ∀ (n i : Nat) (st : EState σ),
      (Engine.loopAux strat data i n st).account_value
          - sumPnl (Engine.loopAux strat data i n st).trades
        = st.account_value - sumPnl st.trades := by
  intro n
  induction n with
  | zero => intro i st; rfl
  | succ n ih =>
    intro i st
    simp only [Engine.loopAux]
    rw [ih]
    exact Engine.processBar_delta strat data i st

/-- One forward-test bar step preserves
`account_value − Σ pnl(collected trades)`. -/
theorem ForwardTestEngine.fwdStep_delta {σ : Type} (strat : Strategy σ)
    (data : List Bar) (idx : Nat) (st : EState σ) (trs : List Trade) :
    (ForwardTestEngine.fwdStep strat data idx (st, trs)).1.account_value
        - sumPnl (ForwardTestEngine.fwdStep strat data idx (st, trs)).2
      = st.account_value - sumPnl trs := by
  unfold ForwardTestEngine.fwdStep
  dsimp only
  split
  · split
    · simp only [BacktestEngine.exit_trade, sumPnl, List.map_append,
        List.sum_append, List.map_cons, List.map_nil, List.sum_cons,
        List.sum_nil]
      ring
    · rfl
  · split
    · rfl
    · rfl

/-- The forward-test bar loop preserves
`account_value − Σ pnl(collected trades)`. -/
theorem ForwardTestEngine.fwdLoop_delta {σ : Type} (strat : Strategy σ)
    (data : List Bar) :
    ∀ (n i : Nat) (st : EState σ) (trs : List Trade),
      (ForwardTestEngine.loopAux strat data i n (st, trs)).1.account_value
          - sumPnl (ForwardTestEngine.loopAux strat data i n (st, trs)).2
        = st.account_value - sumPnl trs := by
  intro n
  induction n with
  | zero => intro i st trs; rfl
  | succ n ih =>
    intro i st trs
    simp only [ForwardTestEngine.loopAux]
    have hstep := ForwardTestEngine.fwdStep_delta strat data i st trs
    have := ih (i + 1) (ForwardTestEngine.fwdStep strat data i (st, trs)).1
      (ForwardTestEngine.fwdStep strat data i (st, trs)).2
    rw [← hstep]
    exact this

/-- The metrics record reports exactly the final account value and the run's
collected trades. -/
theorem ForwardTestEngine.computeResults_final (fc : ℚ) (trs : List Trade) :
    (ForwardTestEngine.computeResults fc trs).final_capital = fc ∧
    (ForwardTestEngine.computeResults fc trs).trades = trs := by
  unfold ForwardTestEngine.computeResults
  split
  · exact ⟨rfl, rfl⟩
  · exact ⟨rfl, rfl⟩

/-- C1 amended: for `Engine.run_backtest` started from a freshly initialized
engine the final account value equals the initial capital plus the sum of
pnl over the recorded trades; for `ForwardTestEngine._run_single_backtest`
the reported final capital equals the account value AT THE START OF THAT RUN
(which is the previous run's ending value, not the nominal initial capital)
plus the sum of pnl over the trades recorded during that run. -/
theorem c1_equity_conservation_amended :
    (∀ {σ : Type} (strat : Strategy σ) (data : List Bar) (s : σ) (c : ℚ),
      (Engine.run_backtest strat data (Engine.init s c)).account_value
        = c + sumPnl (Engine.run_backtest strat data (Engine.init s c)).trades) ∧
    (∀ {σ : Type} (strat : Strategy σ) (data : List Bar) (st : EState σ),
      (ForwardTestEngine.run_single_backtest strat data st).2.final_capital
        = st.account_value
          + sumPnl (ForwardTestEngine.run_single_backtest strat data st).2.trades) := by
  constructor
  · intro σ strat data s c
    have h1 := Engine.loopAux_acc_delta strat data data.length 0 (Engine.init s c)
    have hinit : sumPnl (Engine.init s c).trades = 0 := rfl
    unfold Engine.run_backtest
    cases h : (Engine.loopAux strat data 0 data.length (Engine.init s c)).current_position
    · dsimp only
      simp only [h]
      rw [hinit] at h1
      have : (Engine.init s c).account_value = c := rfl
      rw [this] at h1
      linarith
    · dsimp only
      simp only [h]
      have h2 := Engine.exit_trade_delta strat data (data.length - 1)
        (some "end_of_data") (Engine.loopAux strat data 0 data.length (Engine.init s c))
      rw [hinit] at h1
      have : (Engine.init s c).account_value = c := rfl
      rw [this] at h1
      linarith
  · intro σ strat data st
    have h1 := ForwardTestEngine.fwdLoop_delta strat data data.length 0 st []
    have h2 := ForwardTestEngine.computeResults_final
      (ForwardTestEngine.loopAux strat data 0 data.length (st, [])).1.account_value
      (ForwardTestEngine.loopAux strat data 0 data.length (st, [])).2
    unfold ForwardTestEngine.run_single_backtest
    dsimp only
    rw [h2.1, h2.2]
    have h3 : sumPnl ([] : List Trade) = 0 := rfl
    rw [h3] at h1
    linarith

/-- C1 counterexample: the second of two consecutive
`_run_single_backtest` runs (the very pattern of the grid search and of
successive walk-forward windows) reports a final capital different from
`initial_capital + Σ pnl(trades of that run)`, because the account is not
re-seeded between runs. -/
theorem c1_counterexample :
    ¬ ((ForwardTestEngine.run_single_backtest (testStrategy 0 true) data2
          ((ForwardTestEngine.run_single_backtest (testStrategy 0 true) data2
              (Engine.init () 100000)).1)).2.final_capital
        = 100000
          + sumPnl (ForwardTestEngine.run_single_backtest (testStrategy 0 true) data2
              ((ForwardTestEngine.run_single_backtest (testStrategy 0 true) data2
                  (Engine.init () 100000)).1)).2.trades) := by
  simp [ForwardTestEngine.run_single_backtest, ForwardTestEngine.loopAux,
    ForwardTestEngine.fwdStep, ForwardTestEngine.computeResults,
    BacktestEngine.enter_trade, BacktestEngine.exit_trade, Engine.enter_trade,
    Engine.init, testStrategy, data2, mkBar, sumPnl]
  norm_num

/-- C2: the walk-forward engine's runs are NOT independent — evaluating the
code at a concrete input: after one `_run_single_backtest` (one grid-search
trial) has realized +10 of PnL, the next run on the same data starts from
the mutated account (final capital 100020, not the fresh-account 100010 the
claim implies), and a run that ends with an open position hands that
position to the next run. -/
theorem c2_state_carryover :
    (ForwardTestEngine.run_single_backtest (testStrategy 0 true) data2
        (ForwardTestEngine.run_single_backtest (testStrategy 0 true) data2
          (Engine.init () 100000)).1).2.final_capital = 100020 ∧
    sumPnl (ForwardTestEngine.run_single_backtest (testStrategy 0 true) data2
        (ForwardTestEngine.run_single_backtest (testStrategy 0 true) data2
          (Engine.init () 100000)).1).2.trades = 10 ∧
    (100020 : ℚ) ≠ 100000 + 10 ∧
    (ForwardTestEngine.run_single_backtest (testStrategy 1 false) data2
        (Engine.init () 100000)).1.current_position.isSome = true := by
  refine ⟨?_, ?_, by norm_num, rfl⟩
  · simp [ForwardTestEngine.run_single_backtest, ForwardTestEngine.loopAux,
      ForwardTestEngine.fwdStep, ForwardTestEngine.computeResults,
      BacktestEngine.enter_trade, BacktestEngine.exit_trade, Engine.enter_trade,
      Engine.init, testStrategy, data2, mkBar]
    norm_num
  · simp [ForwardTestEngine.run_single_backtest, ForwardTestEngine.loopAux,
      ForwardTestEngine.fwdStep, ForwardTestEngine.computeResults,
      BacktestEngine.enter_trade, BacktestEngine.exit_trade, Engine.enter_trade,
      Engine.init, testStrategy, data2, mkBar, sumPnl]
    norm_num

/-- C4 counterexample: a `ForwardTestEngine._run_single_backtest` run over a
bar sequence whose strategy enters on the final bar ends with that position
still open — there is no end-of-data closure in the forward tester's loop. -/
theorem c4_counterexample :
    (ForwardTestEngine.run_single_backtest (testStrategy 1 false) data2
        (Engine.init () 100000)).1.current_position
      = some { entry_time := 1, entry_price := 110, position_size := 1
               stop_loss := 60, take_profit := 210, entry_equity := 100000 } := by
  simp [ForwardTestEngine.run_single_backtest, ForwardTestEngine.loopAux,
    ForwardTestEngine.fwdStep, BacktestEngine.enter_trade, Engine.enter_trade,
    Engine.init, testStrategy, data2, mkBar]
  norm_num

/-- C4 amended: `Engine.run_backtest` (the `engine.py` engine) never ends
with an open position, and whenever the bar loop leaves a position open the
run appends one final trade with reason `"end_of_data"` priced and
timestamped at the final bar's close; the walk-forward sub-runs
(`_run_single_backtest`) perform no such closure and can end with an open
position. -/
theorem c4_end_of_data_amended :
    ∀ {σ : Type} (strat : Strategy σ) (data : List Bar) (st : EState σ),
      (Engine.run_backtest strat data st).current_position = none ∧
      (∀ pos,
        (Engine.loopAux strat data 0 data.length st).current_position = some pos →
        ∃ t, (Engine.run_backtest strat data st).trades
              = (Engine.loopAux strat data 0 data.length st).trades ++ [t] ∧
          t.exit_reason = some "end_of_data" ∧
          t.exit_price = (data.getD (data.length - 1) default).close ∧
          t.exit_time = (data.getD (data.length - 1) default).name) := by
  intro σ strat data st
  constructor
  · unfold Engine.run_backtest
    cases h : (Engine.loopAux strat data 0 data.length st).current_position
    · dsimp only
      simp only [h]
    · dsimp only
      simp only [h]
      unfold Engine.exit_trade
      simp [h]
  · intro pos h
    unfold Engine.run_backtest
    simp only [h]
    unfold Engine.exit_trade
    rw [h]
    refine ⟨_, rfl, rfl, ?_, rfl⟩
    simp

/-- Witness for C4 at a concrete run whose loop leaves a position open. -/
theorem c4_witness :
    ∃ t, (Engine.run_backtest (testStrategy 1 false) data2 (Engine.init () 100000)).trades
          = (Engine.loopAux (testStrategy 1 false) data2 0 data2.length
              (Engine.init () 100000)).trades ++ [t] ∧
      t.exit_reason = some "end_of_data" ∧
      t.exit_price = (data2.getD (data2.length - 1) default).close ∧
      t.exit_time = (data2.getD (data2.length - 1) default).name :=
  (c4_end_of_data_amended (testStrategy 1 false) data2 (Engine.init () 100000)).2
    ⟨1, 110, 1, 60, 210, 100000⟩
    (by simp [Engine.loopAux, Engine.processBar, Engine.enter_trade, Engine.init,
        testStrategy, data2, mkBar]
        norm_num)

/-- C6 counterexample: with a grid of two parameter combinations whose first
trial's Engine run fails, `_optimize_parameters` evaluates to that very
error — the failure propagates out of the window's optimization instead of
being absorbed as a worst-possible (−infinity) fitness while the scan
continues. -/
theorem c6_counterexample :
    ForwardTestEngine.optimize_parameters failingTrialRun [0, 1]
        (Engine.init () 100000) = Except.error "strategy raised" := rfl

/-- C6 amended: the grid-search loop contains no exception handling — an
Engine-run failure on a trial aborts the whole window's optimization with
that error (the −infinity value only initializes `best_score` and is never
used as a failure fallback). -/
theorem c6_failure_propagates_amended :
    ∀ {σ P : Type}
      (runOne : P → EState σ → Except String (EState σ × RunResults))
      (p : P) (ps : List P) (st : EState σ) (e : String),
      runOne p st = Except.error e →
      ForwardTestEngine.optimize_parameters runOne (p :: ps) st
        = Except.error e := by
  intro σ P runOne p ps st e h
  unfold ForwardTestEngine.optimize_parameters
  simp only [List.foldlM]
  rw [show runOne p (st, (none : Option P), (⊥ : WithBot ℚ)).1 = Except.error e from h]
  rfl

/-- Witness for C6 with a concrete failing first trial. -/
theorem c6_witness :
    ForwardTestEngine.optimize_parameters failingTrialRun (0 :: [1, 2])
        (Engine.init () 50000) = Except.error "strategy raised" :=
  c6_failure_propagates_amended failingTrialRun 0 [1, 2]
    (Engine.init () 50000) "strategy raised" rfl

/-- C8: in the backtest-result computation the profit factor equals
`|mean(winning pnl)·#winners / (mean(losing pnl)·#losers)|` whenever at least
one losing trade with non-zero mean loss exists, and equals the sentinel `0`
when there are no losing trades; the computation is a total function (the
division-by-zero case is guarded, never raised).  The first conjunct anchors
the metric record to `_run_single_backtest`'s result. -/
theorem c8_profit_factor_sentinel :
    (∀ {σ : Type} (strat : Strategy σ) (data : List Bar) (st : EState σ),
      (ForwardTestEngine.run_single_backtest strat data st).2
        = ForwardTestEngine.computeResults
            (ForwardTestEngine.loopAux strat data 0 data.length (st, [])).1.account_value
            (ForwardTestEngine.loopAux strat data 0 data.length (st, [])).2) ∧
    (∀ (fc : ℚ) (trs : List Trade),
      (trs.filter (fun t => decide (t.pnl ≤ 0)) = [] →
        (ForwardTestEngine.computeResults fc trs).profit_factor = 0) ∧
      (trs.filter (fun t => decide (t.pnl ≤ 0)) ≠ [] →
        listMean ((trs.filter (fun t => decide (t.pnl ≤ 0))).map Trade.pnl) ≠ 0 →
        (ForwardTestEngine.computeResults fc trs).profit_factor
          = |listMean ((trs.filter (fun t => decide (t.pnl > 0))).map Trade.pnl)
              * ((trs.filter (fun t => decide (t.pnl > 0))).length : ℚ)
              / (listMean ((trs.filter (fun t => decide (t.pnl ≤ 0))).map Trade.pnl)
                * ((trs.filter (fun t => decide (t.pnl ≤ 0))).length : ℚ))|)) := by
  constructor
  · intro σ strat data st
    rfl
  · intro fc trs
    constructor
    · intro hL
      unfold ForwardTestEngine.computeResults
      split
      · rfl
      · dsimp only
        simp [hL]
    · intro hL hm
      unfold ForwardTestEngine.computeResults
      split
      · rename_i he
        rw [List.isEmpty_iff] at he
        subst he
        simp at hL
      · dsimp only
        have hlen : 0 < (trs.filter (fun t => decide (t.pnl ≤ 0))).length :=
          List.length_pos.mpr hL
        simp only [listMean, List.length_map] at hm ⊢
        rw [if_pos hlen, if_pos ⟨hm, hlen⟩]
        by_cases hw : 0 < (trs.filter (fun t => decide (t.pnl > 0))).length
        · rw [if_pos hw]
        · rw [if_neg hw]
          have hwz : trs.filter (fun t => decide (t.pnl > 0)) = [] :=
            List.length_eq_zero.mp (Nat.eq_zero_of_not_pos hw)
          rw [hwz]
          simp

/-- Witness for C8 on a one-trade run result with a single losing trade. -/
theorem c8_witness :
    (([⟨0, 1, 100, 90, 1, -10, -1, some "signal", 99990⟩] : List Trade).filter
        (fun t => decide (t.pnl ≤ 0)) ≠ []) ∧
    (listMean ((([⟨0, 1, 100, 90, 1, -10, -1, some "signal", 99990⟩] : List Trade).filter
        (fun t => decide (t.pnl ≤ 0))).map Trade.pnl) ≠ 0) ∧
    (ForwardTestEngine.computeResults 50
        [⟨0, 1, 100, 90, 1, -10, -1, some "signal", 99990⟩]).profit_factor
      = |listMean ((([⟨0, 1, 100, 90, 1, -10, -1, some "signal", 99990⟩] : List Trade).filter
            (fun t => decide (t.pnl > 0))).map Trade.pnl)
          * ((([⟨0, 1, 100, 90, 1, -10, -1, some "signal", 99990⟩] : List Trade).filter
            (fun t => decide (t.pnl > 0))).length : ℚ)
          / (listMean ((([⟨0, 1, 100, 90, 1, -10, -1, some "signal", 99990⟩] : List Trade).filter
            (fun t => decide (t.pnl ≤ 0))).map Trade.pnl)
            * ((([⟨0, 1, 100, 90, 1, -10, -1, some "signal", 99990⟩] : List Trade).filter
            (fun t => decide (t.pnl ≤ 0))).length : ℚ))| :=
  ⟨by norm_num [List.filter], by norm_num [List.filter, listMean],
    (c8_profit_factor_sentinel.2 50
        [⟨0, 1, 100, 90, 1, -10, -1, some "signal", 99990⟩]).2
      (by norm_num [List.filter]) (by norm_num [List.filter, listMean])⟩

/-- On a bar list with strictly increasing timestamps, earlier indices carry
strictly smaller timestamps. -/
theorem barName_lt {data : List Bar}
    (hs : data.Pairwise (fun a b => a.name < b.name)) {i j : Nat}
    (hij : i < j) (hj : j < data.length) :
    (data.getD i default).name < (data.getD j default).name := by
  rw [List.getD_eq_getElem data default (Nat.lt_trans hij hj),
    List.getD_eq_getElem data default hj]
  exact List.pairwise_iff_getElem.mp hs i j (Nat.lt_trans hij hj) hj hij

/-- Invariant step for trade time ordering: processing bar `i` preserves
that every recorded trade exited strictly after it entered and that any open
position was entered at some bar index `< i + 1`. -/
theorem Engine.processBar_time_inv {σ : Type} (strat : Strategy σ)
    (data : List Bar) (hs : data.Pairwise (fun a b => a.name < b.name))
    (i : Nat) (hi : i < data.length) (st : EState σ)
    (htr : ∀ t ∈ st.trades, t.entry_time < t.exit_time)
    (hpos : ∀ pos, st.current_position = some pos →
      ∃ j, j < i ∧ j < data.length ∧
        pos.entry_time = (data.getD j default).name) :
    (∀ t ∈ (Engine.processBar strat data i st).trades,
      t.entry_time < t.exit_time) ∧
    (∀ pos, (Engine.processBar strat data i st).current_position = some pos →
      ∃ j, j < i + 1 ∧ j < data.length ∧
        pos.entry_time = (data.getD j default).name) := by
  unfold Engine.processBar
  cases h : st.current_position with
  | none =>
    dsimp only
    split
    · constructor
      · intro t ht
        exact htr t ht
      · intro pos hp
        unfold Engine.enter_trade at hp
        have hp2 := Option.some.inj hp
        refine ⟨i, Nat.lt_succ_self i, hi, ?_⟩
        rw [← hp2]
    · constructor
      · intro t ht
        exact htr t ht
      · intro pos hp
        exact absurd hp (by simp)
  | some pos0 =>
    dsimp only
    split
    · unfold Engine.exit_trade
      dsimp only
      constructor
      · intro t ht
        rcases List.mem_append.mp ht with h1 | h2
        · exact htr t h1
        · obtain ⟨j, hj1, hj2, hj3⟩ := hpos pos0 h
          have hname := barName_lt hs hj1 hi
          have ht2 := List.mem_singleton.mp h2
          subst ht2
          show pos0.entry_time < (data.getD i default).name
          rw [hj3]
          exact hname
      · intro pos hp
        exact absurd hp (by simp)
    · constructor
      · intro t ht
        exact htr t ht
      · intro pos hp
        obtain ⟨j, hj1, hj2, hj3⟩ := hpos pos0 h
        have hp2 : pos0 = pos := Option.some.inj hp
        exact ⟨j, Nat.lt_succ_of_lt hj1, hj2, by rw [← hp2]; exact hj3⟩

/-- The bar loop preserves the trade time-ordering invariant. -/
theorem Engine.loopAux_time_inv {σ : Type} (strat : Strategy σ)
    (data : List Bar) (hs : data.Pairwise (fun a b => a.name < b.name)) :
    ∀ (n i : Nat) (st : EState σ),
      i + n = data.length →
      (∀ t ∈ st.trades, t.entry_time < t.exit_time) →
      (∀ pos, st.current_position = some pos →
        ∃ j, j < i ∧ j < data.length ∧
          pos.entry_time = (data.getD j default).name) →
      (∀ t ∈ (Engine.loopAux strat data i n st).trades,
        t.entry_time < t.exit_time) ∧
      (∀ pos, (Engine.loopAux strat data i n st).current_position = some pos →
        ∃ j, j < data.length ∧ pos.entry_time = (data.getD j default).name) := by
  intro n
  induction n with
  | zero =>
    intro i st hi htr hpos
    refine ⟨htr, ?_⟩
    intro pos hp
    obtain ⟨j, _, hj2, hj3⟩ := hpos pos hp
    exact ⟨j, hj2, hj3⟩
  | succ n ih =>
    intro i st hi htr hpos
    simp only [Engine.loopAux]
    have hstep := Engine.processBar_time_inv strat data hs i (by omega) st htr hpos
    exact ih (i + 1) (Engine.processBar strat data i st) (by omega) hstep.1 hstep.2

/-- C9 amended: over bars with strictly increasing timestamps, every trade
closed during the bar loop has `exit_time` strictly later than `entry_time`;
for the full run (which may append one forced end-of-data closure) the
guarantee is `entry_time ≤ exit_time` — equality occurs exactly when the
position was entered on the final bar and force-closed there. -/
theorem c9_trade_time_order_amended :
    ∀ {σ : Type} (strat : Strategy σ) (data : List Bar) (s : σ) (c : ℚ),
      data.Pairwise (fun a b => a.name < b.name) →
      (∀ t ∈ (Engine.loopAux strat data 0 data.length (Engine.init s c)).trades,
        t.entry_time < t.exit_time) ∧
      (∀ t ∈ (Engine.run_backtest strat data (Engine.init s c)).trades,
        t.entry_time ≤ t.exit_time) := by
  intro σ strat data s c hs
  have hinv := Engine.loopAux_time_inv strat data hs data.length 0
    (Engine.init s c) (by omega)
    (by intro t ht; cases ht)
    (by intro pos hp; cases hp)
  refine ⟨hinv.1, ?_⟩
  unfold Engine.run_backtest
  cases h : (Engine.loopAux strat data 0 data.length
      (Engine.init s c)).current_position with
  | none =>
    dsimp only
    simp only [h]
    exact fun t ht => le_of_lt (hinv.1 t ht)
  | some pos =>
    dsimp only
    simp only [h]
    unfold Engine.exit_trade
    rw [h]
    intro t ht
    rcases List.mem_append.mp ht with h1 | h2
    · exact le_of_lt (hinv.1 t h1)
    · obtain ⟨j, hj, hname⟩ := hinv.2 pos h
      have ht2 := List.mem_singleton.mp h2
      subst ht2
      show pos.entry_time ≤ (data.getD (data.length - 1) default).name
      rw [hname]
      rcases Nat.lt_or_ge j (data.length - 1) with hlt | hge
      · exact le_of_lt (barName_lt hs hlt (by omega))
      · have hj2 : j = data.length - 1 := by omega
        rw [hj2]

/-- C9 counterexample: on two bars with strictly increasing timestamps, a
strategy entering on the final bar yields (via the forced end-of-data
closure at that same bar) a trade with `exit_time = entry_time = 1`, not
`exit_time > entry_time`. -/
theorem c9_counterexample :
    data2.Pairwise (fun a b => a.name < b.name) ∧
    ((Engine.run_backtest (testStrategy 1 false) data2
        (Engine.init () 100000)).trades.map
          (fun t => (t.entry_time, t.exit_time))) = [(1, 1)] := by
  constructor
  · decide
  · rfl

/-- Witness for C9 on concrete strictly-increasing bars. -/
theorem c9_witness :
    (∀ t ∈ (Engine.loopAux (testStrategy 0 true) data2 0 data2.length
        (Engine.init () 100000)).trades, t.entry_time < t.exit_time) ∧
    (∀ t ∈ (Engine.run_backtest (testStrategy 0 true) data2
        (Engine.init () 100000)).trades, t.entry_time ≤ t.exit_time) :=
  c9_trade_time_order_amended (testStrategy 0 true) data2 () 100000 (by decide)
